import Mathlib

set_option autoImplicit false

namespace ProxmoxApi

/-- GoValue models the dynamically typed scalar values (Go interface values)
stored in device maps and parameter maps of the source: strings, machine
integers, booleans and float64 numbers. -/
inductive GoValue where
  | str (s : String)
  | int (n : Int)
  | bool (b : Bool)
  | float (x : Float)
deriving Repr

/-- QemuDevice models the Go type QemuDevice = map[string]interface, as an
association list with unique keys; lookup returns the first match. -/
abbrev QemuDevice := List (String × GoValue)

/-- Params models the generic parameter map map[string]interface passed to the
remote API calls. -/
abbrev Params := List (String × GoValue)

/-- Lookup of a key in a string-keyed Go map, modelled on the association list:
missing keys yield none (a nil interface value in Go). -/
def qdGet : List (String × GoValue) → String → Option GoValue
  | [], _ => none
  | (k, v) :: rest, key => if k = key then some v else qdGet rest key

/-- Assignment m[key] = value on a string-keyed Go map: replaces the value of an
existing key, otherwise adds the entry. -/
def qdSet : List (String × GoValue) → String → GoValue → List (String × GoValue)
  | [], key, value => [(key, value)]
  | (k, v) :: rest, key, value =>
    if k = key then (key, value) :: rest else (k, v) :: qdSet rest key value

/-- QemuDevices models the Go type QemuDevices = map[int]QemuDevice. A Go map
variable may be nil (declared but not initialized): reads on a nil map succeed
and len is 0, but writes panic. The nilMap constructor models that state. -/
inductive QemuDevices where
  | nilMap : QemuDevices
  | mk (entries : List (Int × QemuDevice)) : QemuDevices

/-- Entry list of a device table; a nil map has no entries. -/
def QemuDevices.entries : QemuDevices → List (Int × QemuDevice)
  | .nilMap => []
  | .mk es => es

/-- Go len of a device table (0 for a nil map). -/
def QemuDevices.goLen (m : QemuDevices) : Nat := m.entries.length

/-- Entry replacement inside the entry list of a device table. -/
def qdevEntriesSet : List (Int × QemuDevice) → Int → QemuDevice → List (Int × QemuDevice)
  | [], key, value => [(key, value)]
  | (k, v) :: rest, key, value =>
    if k = key then (key, value) :: rest else (k, v) :: qdevEntriesSet rest key value

/-- Assignment m[key] = value on a device table. Writing to a nil map is a Go
runtime panic, modelled as none. -/
def QemuDevices.set : QemuDevices → Int → QemuDevice → Option QemuDevices
  | .nilMap, _, _ => none
  | .mk es, key, value => some (.mk (qdevEntriesSet es key value))

/-- VmConfigMap models the flat configuration map map[string]interface returned
by client.GetVmConfig. -/
abbrev VmConfigMap := List (String × GoValue)

/-- Lock-retry phase of NewConfigQemuFromApi (the for loop over ii < 3 in the
source): remaining counts the loop iterations still allowed, ii is the loop
index passed to the fetch oracle, and the accumulators count issued fetch calls
and slept seconds. Fetch errors return immediately; a configuration without a
lock key breaks out of the loop; otherwise the code sleeps 8 seconds and
retries. When the iterations are exhausted the last fetched configuration is
kept. -/
def lockRetryGo (fetch : Nat → Except String VmConfigMap) :
    Nat → Nat → VmConfigMap → Nat → Nat → (Except String VmConfigMap) × Nat × Nat
  | 0, _, vmConfig, nFetch, nSleep => (.ok vmConfig, nFetch, nSleep)
  | remaining + 1, ii, _, nFetch, nSleep =>
    match fetch ii with
    | .error e => (.error e, nFetch + 1, nSleep)
    | .ok cfg =>
      if (qdGet cfg "lock").isNone then (.ok cfg, nFetch + 1, nSleep)
      else lockRetryGo fetch remaining (ii + 1) cfg (nFetch + 1) (nSleep + 8)

/-- Lock handling prefix of NewConfigQemuFromApi: run the retry loop (3
iterations starting from a nil configuration) and then fail with the vm locked
error when the final configuration still carries a lock key. The second and
third components report how many fetch calls were issued and how many seconds
were slept in total. -/
def newConfigQemuFromApiLockPhase (fetch : Nat → Except String VmConfigMap) :
    (Except String VmConfigMap) × Nat × Nat :=
  match lockRetryGo fetch 3 0 [] 0 0 with
  | (.error e, nFetch, nSleep) => (.error e, nFetch, nSleep)
  | (.ok cfg, nFetch, nSleep) =>
    if (qdGet cfg "lock").isNone then (.ok cfg, nFetch, nSleep)
    else (.error "vm locked, could not obtain config", nFetch, nSleep)

/-- splitOnChar models strings.Split with a one-character separator, acting on
character lists: the empty list yields one empty field, and each separator
occurrence starts a new field. -/
def splitOnChar (sep : Char) : List Char → List (List Char)
  | [] => [[]]
  | x :: xs =>
    let r := splitOnChar sep xs
    if x = sep then [] :: r
    else
      match r with
      | h :: t => (x :: h) :: t
      | [] => [[x]]

/-- goSplit models strings.Split(s, sep) for a one-character separator. -/
def goSplit (s : String) (sep : Char) : List String :=
  (splitOnChar sep s.data).map (fun l => String.mk l)

/-- goIsDigit tests for an ASCII decimal digit. -/
def goIsDigit (c : Char) : Bool := 48 ≤ c.toNat && c.toNat ≤ 57

/-- digitsVal reads a run of ASCII decimal digits as a natural number. -/
def digitsVal (l : List Char) : Nat := l.foldl (fun a c => a * 10 + (c.toNat - 48)) 0

/-- goParseInt models strconv.ParseInt(s, 10, 64): an optional single sign
followed by a nonempty run of decimal digits, with an int64 range check;
anything else (including overflow) is an error, modelled as none. -/
def goParseInt (s : String) : Option Int :=
  let signAndDigits : Int × List Char :=
    match s.data with
    | '+' :: r => (1, r)
    | '-' :: r => (-1, r)
    | r => (1, r)
  let sign := signAndDigits.1
  let ds := signAndDigits.2
  if ds.isEmpty then none
  else if !(ds.all goIsDigit) then none
  else
    let n : Int := sign * (digitsVal ds : Nat)
    if -(2 ^ 63) ≤ n ∧ n < 2 ^ 63 then some n else none

/-- goParseBool models strconv.ParseBool: it accepts exactly the listed literal
forms of true and false. -/
def goParseBool (s : String) : Option Bool :=
  if ["1", "t", "T", "TRUE", "true", "True"].contains s then some true
  else if ["0", "f", "F", "FALSE", "false", "False"].contains s then some false
  else none

/-- coerceValue is the value coercion performed inside readDeviceConfig: try a
base-10 integer parse first, then a boolean parse, and otherwise keep the
string unchanged. -/
def coerceValue (value : String) : GoValue :=
  match goParseInt value with
  | some i => .int i
  | none =>
    match goParseBool value with
    | some b => .bool b
    | none => .str value

/-- readDeviceConfig models (QemuDevice).readDeviceConfig from the source: each
segment is split on the equals sign; indexing conf[1] panics (modelled as none)
when the segment holds no equals sign, otherwise the coerced value is stored in
the map under the key and the remaining segments are processed. -/
def readDeviceConfig (confMap : QemuDevice) : List String → Option QemuDevice
  | [] => some confMap
  | confs :: rest =>
    match goSplit confs '=' with
    | key :: value :: _ => readDeviceConfig (qdSet confMap key (coerceValue value)) rest
    | _ => none

/-- goItoa models strconv.Itoa and the %v formatting of a Go integer. -/
def goItoa (n : Int) : String := toString n

/-- goFormatValue models fmt %v formatting of a dynamically typed value. The
float case approximates the Go shortest-decimal formatting and no theorem
below depends on it. -/
def goFormatValue : GoValue → String
  | .str s => s
  | .int n => goItoa n
  | .bool b => if b then "true" else "false"
  | .float x => toString x

/-- goFormatOpt models fmt %v formatting of a possibly missing map entry: a
missing key is a nil interface value and prints as the bracketed nil form. -/
def goFormatOpt : Option GoValue → String
  | some v => goFormatValue v
  | none => "<nil>"

/-- goAssertString models the Go type assertion value.(string): it panics
(modelled as none) when the entry is missing or holds a non-string value. -/
def goAssertString : Option GoValue → Option String
  | some (.str s) => some s
  | _ => none

/-- inArray is the linear membership helper from the source. -/
def inArray (arr : List String) (str : String) : Bool :=
  arr.any (fun elem => elem == str)

/-- paramValue gives the confValue computed by the type switch inside
createDeviceParam: boolean true becomes the literal 1, a nonempty string is
kept, a positive integer is formatted, anything else stays nil (none). -/
def paramValue : GoValue → Option String
  | .bool b => if b then some "1" else none
  | .str s => if s.length > 0 then some s else none
  | .int n => if n > 0 then some (goItoa n) else none
  | .float _ => none

/-- createDeviceParam models (QemuDeviceParam).createDeviceParam: every map
entry whose key is not ignored and whose value survives the suppression rule
appends one key=value token to the parameter list. -/
def createDeviceParam (p : List String) (deviceConfMap : QemuDevice)
    (ignoredKeys : List String) : List String :=
  p ++ deviceConfMap.filterMap (fun kv =>
    if inArray ignoredKeys kv.1 then none
    else (paramValue kv.2).map (fun v => kv.1 ++ "=" ++ v))

/-- goTrimG models strings.Trim(s, "G"): leading and trailing G runes are
removed. -/
def goTrimG (s : String) : String :=
  String.mk (((s.data.dropWhile (fun c => c = 'G')).reverse.dropWhile (fun c => c = 'G')).reverse)

/-- goToUpper models strings.ToUpper on the character list. -/
def goToUpper (s : String) : String := String.mk (s.data.map Char.toUpper)

/-- hexDigitChar gives the lowercase hexadecimal digit for a value below 16. -/
def hexDigitChar (n : Nat) : Char := if n < 10 then Char.ofNat (48 + n) else Char.ofNat (87 + n)

/-- byteHex formats one byte as two lowercase hexadecimal digits. -/
def byteHex (b : Nat) : String := String.mk [hexDigitChar ((b % 256) / 16), hexDigitChar (b % 16)]

/-- goHardwareAddrString models the String method of net.HardwareAddr:
colon-separated lowercase hex bytes. -/
def goHardwareAddrString (bytes : List Nat) : String :=
  String.intercalate ":" (bytes.map byteHex)

/-- generatedMac is the MAC derivation of CreateQemuNetworksParams: the global
pseudo-random source is seeded with vmID + nicID and six bytes are read; that
composition is a pure function of the seed, modelled by the randRead oracle.
The bytes are formatted colon-separated and upper-cased. -/
def generatedMac (randRead : Int → List Nat) (seed : Int) : String :=
  goToUpper (goHardwareAddrString (randRead seed))

/-- listHasSubstr decides whether pat occurs as a contiguous sublist. -/
def listHasSubstr (pat : List Char) : List Char → Bool
  | [] => pat.isEmpty
  | c :: rest => pat.isPrefixOf (c :: rest) || listHasSubstr pat rest

/-- rxStorageTypesMatch models regexp.MatchString with the unanchored pattern
for the zfspool and lvm alternatives: it holds when the storage type contains
either literal. -/
def rxStorageTypesMatch (storageType : String) : Bool :=
  listHasSubstr "zfspool".data storageType.data || listHasSubstr "lvm".data storageType.data

/-- goJoin models strings.Join. -/
def goJoin (sep : String) : List String → String
  | [] => ""
  | [a] => a
  | a :: b :: rest => a ++ sep ++ goJoin sep (b :: rest)

/-- ConfigQemu mirrors the source struct; the device tables default to the Go
zero value, a nil map. -/
structure ConfigQemu where
  Name : String := ""
  Description : String := ""
  Onboot : Bool := false
  Memory : Int := 0
  Storage : String := ""
  QemuOs : String := ""
  QemuCores : Int := 0
  QemuSockets : Int := 0
  QemuIso : String := ""
  QemuDisks : QemuDevices := .nilMap
  QemuNetworks : QemuDevices := .nilMap
  FullClone : Option Int := none
  QemuNicModel : String := ""
  QemuBrige : String := ""
  QemuVlanTag : Int := 0
  DiskSize : Float := 0.0

/-- disksBackCompat is the backward-compatibility prologue of
CreateQemuDisksParams: when the disk table has length 0 and the deprecated
Storage field is nonempty, one legacy descriptor is written at index 0 (a
write that panics on a nil table). -/
def disksBackCompat (c : ConfigQemu) : Option QemuDevices :=
  if c.QemuDisks.goLen = 0 ∧ c.Storage.length > 0 then
    c.QemuDisks.set 0 [("storage", .str c.Storage), ("size", .float c.DiskSize)]
  else some c.QemuDisks

/-- netsBackCompat is the backward-compatibility prologue of
CreateQemuNetworksParams: when the network table has length 0 and the
deprecated QemuNicModel field is nonempty, one legacy descriptor is written at
index 0, carrying a tag attribute only for a positive VLAN tag. -/
def netsBackCompat (c : ConfigQemu) : Option QemuDevices :=
  if c.QemuNetworks.goLen = 0 ∧ c.QemuNicModel.length > 0 then
    let deprecatedStyleMap : QemuDevice :=
      if c.QemuVlanTag > 0 then
        [("type", .str c.QemuNicModel), ("bridge", .str c.QemuBrige),
         ("tag", .str (goItoa c.QemuVlanTag))]
      else
        [("type", .str c.QemuNicModel), ("bridge", .str c.QemuBrige)]
    c.QemuNetworks.set 0 deprecatedStyleMap
  else some c.QemuNetworks

/-- encodeDisk is the per-disk body of CreateQemuDisksParams: it computes the
remote key (device type plus index) and the flat value string for one disk
descriptor under the given action mode. Failed Go type assertions are modelled
as none. -/
def encodeDisk (vmID : Int) (action : String) (diskID : Int) (diskConfMap : QemuDevice) :
    Option (String × String) := do
  let deviceType ← goAssertString (qdGet diskConfMap "type")
  let qemuDiskName := deviceType ++ goItoa diskID
  let positional ←
    if action = "create" then do
      let diskSizeGB ← goAssertString (qdGet diskConfMap "size")
      pure [goFormatOpt (qdGet diskConfMap "storage") ++ ":" ++ goTrimG diskSizeGB]
    else if action = "update" then do
      let storageType ← goAssertString (qdGet diskConfMap "storage_type")
      let diskFile :=
        if rxStorageTypesMatch storageType then
          "file=" ++ goFormatOpt (qdGet diskConfMap "storage") ++ ":vm-" ++ goItoa vmID ++
            "-disk-" ++ goItoa (diskID + 1)
        else
          "file=" ++ goFormatOpt (qdGet diskConfMap "storage") ++ ":" ++ goItoa vmID ++
            "/vm-" ++ goItoa vmID ++ "-disk-" ++ goItoa (diskID + 1) ++ "." ++
            goFormatOpt (qdGet diskConfMap "format")
      pure ["size=" ++ goFormatOpt (qdGet diskConfMap "size"), diskFile]
    else pure []
  let cacheValue ← goAssertString (qdGet diskConfMap "cache")
  let withCache :=
    if cacheValue ≠ "none" then positional ++ ["cache=" ++ goFormatOpt (qdGet diskConfMap "cache")]
    else positional
  let tokens :=
    createDeviceParam withCache diskConfMap ["id", "type", "storage", "storage_type", "size", "cache"]
  pure (qemuDiskName, goJoin "," tokens)

/-- encodeDisksList folds the per-disk encoding over the table entries, writing
each result into the parameter map under its device name. -/
def encodeDisksList (vmID : Int) (action : String) :
    List (Int × QemuDevice) → Params → Option Params
  | [], params => some params
  | (diskID, diskConfMap) :: rest, params => do
    let nv ← encodeDisk vmID action diskID diskConfMap
    encodeDisksList vmID action rest (qdSet params nv.1 (.str nv.2))

/-- CreateQemuDisksParams models (ConfigQemu).CreateQemuDisksParams: legacy
synthesis, then per-disk encoding into the parameter map. Go map iteration
order is unspecified; the model iterates the table entries in list order. -/
def CreateQemuDisksParams (c : ConfigQemu) (vmID : Int) (action : String) (params : Params) :
    Option Params := do
  let tbl ← disksBackCompat c
  encodeDisksList vmID action tbl.entries params

/-- encodeNic is the per-interface body of CreateQemuNetworksParams: an empty
macaddr attribute is replaced by the deterministically generated MAC (and the
generated value is written back into the descriptor), the bridge token is
emitted unless the bridge is nat, and the remaining attributes go through
createDeviceParam. The updated descriptor is returned with the flat value. -/
def encodeNic (randRead : Int → List Nat) (vmID nicID : Int) (nicConfMapIn : QemuDevice) :
    Option (String × QemuDevice) := do
  let mac ← goAssertString (qdGet nicConfMapIn "macaddr")
  let macTokAndMap :=
    if mac = "" then
      let macAddrUppr := generatedMac randRead (vmID + nicID)
      ("macaddr=" ++ macAddrUppr, qdSet nicConfMapIn "macaddr" (.str macAddrUppr))
    else
      ("macaddr=" ++ mac, nicConfMapIn)
  let macTok := macTokAndMap.1
  let nicConfMap := macTokAndMap.2
  let bridge ← goAssertString (qdGet nicConfMap "bridge")
  let toks :=
    if bridge ≠ "nat" then [macTok, "bridge=" ++ goFormatOpt (qdGet nicConfMap "bridge")]
    else [macTok]
  let tokens := createDeviceParam toks nicConfMap ["id", "bridge", "macaddr"]
  pure (goJoin "," tokens, nicConfMap)

/-- encodeNicsList folds the per-interface encoding over the table entries,
collecting the updated descriptors so callers observe written-back MACs. -/
def encodeNicsList (randRead : Int → List Nat) (vmID : Int) :
    List (Int × QemuDevice) → Params → Option (Params × List (Int × QemuDevice))
  | [], params => some (params, [])
  | (nicID, nicConfMap) :: rest, params => do
    let vc ← encodeNic randRead vmID nicID nicConfMap
    let pr ← encodeNicsList randRead vmID rest (qdSet params ("net" ++ goItoa nicID) (.str vc.1))
    pure (pr.1, (nicID, vc.2) :: pr.2)

/-- CreateQemuNetworksParams models (ConfigQemu).CreateQemuNetworksParams:
legacy synthesis, then per-interface encoding into the parameter map, also
returning the updated device table (the source mutates the shared maps). -/
def CreateQemuNetworksParams (randRead : Int → List Nat) (c : ConfigQemu) (vmID : Int)
    (params : Params) : Option (Params × QemuDevices) := do
  let tbl ← netsBackCompat c
  let pr ← encodeNicsList randRead vmID tbl.entries params
  pure (pr.1, .mk pr.2)

/-- VmRef is modelled from the spec: the VM reference/identity type is an
external collaborator exposing the numeric VM id and the node name (its source
file is not among the provided sources). -/
structure VmRef where
  vmId : Int
  node : String

/-- Client is modelled from the spec: it carries the transport results of the
external API client for the calls issued by CloneVm and UpdateConfig; failures
are passed through unchanged by this core. -/
structure Client where
  cloneQemuVmResult : Except String GoValue
  setVmConfigResult : Except String GoValue

/-- ApiCall records one remote call issued by the orchestrator. -/
inductive ApiCall where
  | cloneQemuVm (sourceVmr : VmRef) (params : Params)
  | setVmConfig (vmr : VmRef) (params : Params)

/-- cloneParams is the parameter map CloneVm sends with the remote clone call:
new id, target node, name, storage and the full-clone flag (the FullClone
field formatted, defaulting to 1). -/
def cloneParams (config : ConfigQemu) (vmr : VmRef) : Params :=
  let fullclone :=
    match config.FullClone with
    | some n => goItoa n
    | none => "1"
  [("newid", .int vmr.vmId), ("target", .str vmr.node), ("name", .str config.Name),
   ("storage", .str config.Storage), ("full", .str fullclone)]

/-- updateConfigParams is the scalar parameter map literal built at the start
of UpdateConfig. -/
def updateConfigParams (config : ConfigQemu) : Params :=
  [("description", .str config.Description), ("onboot", .bool config.Onboot),
   ("sockets", .int config.QemuSockets), ("cores", .int config.QemuCores),
   ("memory", .int config.Memory)]

/-- UpdateConfig models (ConfigQemu).UpdateConfig: build the scalar parameter
map, encode the disk table under the update action and the network table, then
issue SetVmConfig. The first component is the returned error value (none
models a Go panic inside the encoders); the second lists the remote calls
issued. -/
def UpdateConfig (randRead : Int → List Nat) (config : ConfigQemu) (vmr : VmRef)
    (client : Client) : Option (Except String Unit) × List ApiCall :=
  match CreateQemuDisksParams config vmr.vmId "update" (updateConfigParams config) with
  | none => (none, [])
  | some p1 =>
    match CreateQemuNetworksParams randRead config vmr.vmId p1 with
    | none => (none, [])
    | some pr =>
      (some (match client.setVmConfigResult with
             | .error e => .error e
             | .ok _ => .ok ()),
       [.setVmConfig vmr pr.1])

/-- CloneVm models (ConfigQemu).CloneVm: it issues the remote clone call with
the new id, target node, name, storage and full-clone flag; only on success it
runs UpdateConfig on the new VM, and otherwise the clone failure is returned
unchanged. -/
def CloneVm (randRead : Int → List Nat) (config : ConfigQemu) (sourceVmr vmr : VmRef)
    (client : Client) : Option (Except String Unit) × List ApiCall :=
  let ps := cloneParams config vmr
  match client.cloneQemuVmResult with
  | .error e => (some (.error e), [.cloneQemuVm sourceVmr ps])
  | .ok _ =>
    let ur := UpdateConfig randRead config vmr client
    (ur.1, .cloneQemuVm sourceVmr ps :: ur.2)

theorem splitOnChar_ne_nil (sep : Char) (l : List Char) : splitOnChar sep l ≠ [] := by
  induction l with
  | nil => simp [splitOnChar]
  | cons x xs ih =>
    by_cases hx : x = sep
    · simp [splitOnChar, hx]
    · cases hr : splitOnChar sep xs with
      | nil => exact absurd hr ih
      | cons h t => simp [splitOnChar, hx, hr]

theorem splitOnChar_no_sep (sep : Char) (l : List Char) (h : sep ∉ l) :
    splitOnChar sep l = [l] := by
  induction l with
  | nil => rfl
  | cons x xs ih =>
    have hx : ¬ x = sep := fun hxe => h (hxe ▸ List.mem_cons_self x xs)
    have hxs : sep ∉ xs := fun hm => h (List.mem_cons_of_mem x hm)
    simp [splitOnChar, hx, ih hxs]

theorem splitOnChar_sep_append (sep : Char) (l₁ l₂ : List Char) (h : sep ∉ l₁) :
    splitOnChar sep (l₁ ++ sep :: l₂) = l₁ :: splitOnChar sep l₂ := by
  induction l₁ with
  | nil => simp [splitOnChar]
  | cons x xs ih =>
    have hx : ¬ x = sep := fun hxe => h (hxe ▸ List.mem_cons_self x xs)
    have hxs : sep ∉ xs := fun hm => h (List.mem_cons_of_mem x hm)
    simp only [List.cons_append, splitOnChar, hx, if_false, List.append_eq, ih hxs]

theorem goSplit_keyValue (key value : String) (hk : '=' ∉ key.data) (hv : '=' ∉ value.data) :
    goSplit (key ++ "=" ++ value) '=' = [key, value] := by
  have hdata : (key ++ "=" ++ value).data = key.data ++ '=' :: value.data := by
    simp [String.data_append]
  rw [goSplit, hdata, splitOnChar_sep_append _ _ _ hk, splitOnChar_no_sep _ _ hv]
  simp

/-- C1 counterexample: against a client that always reports a lock, the
read-back lock phase issues 3 fetch calls but sleeps 24 seconds (three 8 second
intervals, one after every locked attempt including the last), refuting the
claimed ~16 seconds (2 intervals) of delay. -/
theorem C1_counterexample :
    newConfigQemuFromApiLockPhase (fun _ => .ok [("lock", GoValue.str "clone")]) =
      (.error "vm locked, could not obtain config", 3, 24) ∧ (24 : Nat) ≠ 16 :=
  ⟨rfl, by decide⟩

/-- C1 amended: while the fetched remote configuration contains a non-nil lock
field, NewConfigQemuFromApi re-fetches up to 3 attempts sleeping 8 seconds
after each locked attempt; against a remote client that always reports a
non-empty lock it issues exactly 3 fetch calls and 24 seconds of delay (3 sleep
intervals, since the code also sleeps after the final locked attempt), never
fewer and never indefinitely, and then fails with the vm locked error. -/
theorem C1_lock_retry_terminates (fetch : Nat → Except String VmConfigMap)
    (h : ∀ i, i < 3 → ∃ cfg, fetch i = .ok cfg ∧ (qdGet cfg "lock").isNone = false) :
    newConfigQemuFromApiLockPhase fetch =
      (.error "vm locked, could not obtain config", 3, 24) := by
  obtain ⟨c0, h0, l0⟩ := h 0 (by omega)
  obtain ⟨c1, h1, l1⟩ := h 1 (by omega)
  obtain ⟨c2, h2, l2⟩ := h 2 (by omega)
  simp [newConfigQemuFromApiLockPhase, lockRetryGo, h0, h1, h2, l0, l1, l2]

/-- C1 witness: the amended lock-retry theorem applied to the always-locked
client. -/
theorem C1_lock_retry_terminates_witness :
    newConfigQemuFromApiLockPhase (fun i => .ok [("lock", GoValue.str "clone"), ("digest", GoValue.str (toString i))]) =
      (.error "vm locked, could not obtain config", 3, 24) :=
  C1_lock_retry_terminates _
    (fun i _ => ⟨[("lock", GoValue.str "clone"), ("digest", GoValue.str (toString i))], rfl, rfl⟩)

/-- C5: decoding a flat key=value segment coerces the value by trying a base-10
integer parse first, then a boolean parse of the literal true and false forms,
and otherwise retains the string; the coercion is total, and in particular the
value 1 decodes as integer 1, not boolean true. -/
theorem C5_type_coercion :
    (∀ s i, goParseInt s = some i → coerceValue s = .int i) ∧
    (∀ s b, goParseInt s = none → goParseBool s = some b → coerceValue s = .bool b) ∧
    (∀ s, goParseInt s = none → goParseBool s = none → coerceValue s = .str s) ∧
    (∀ s, (∃ i, coerceValue s = .int i) ∨ (∃ b, coerceValue s = .bool b) ∨ coerceValue s = .str s) ∧
    coerceValue "1" = .int 1 ∧
    (∀ confMap key value rest, '=' ∉ key.data → '=' ∉ value.data →
      readDeviceConfig confMap ((key ++ "=" ++ value) :: rest) =
        readDeviceConfig (qdSet confMap key (coerceValue value)) rest) := by
  refine ⟨?_, ?_, ?_, ?_, rfl, ?_⟩
  · intro s i h
    simp [coerceValue, h]
  · intro s b h1 h2
    simp [coerceValue, h1, h2]
  · intro s h1 h2
    simp [coerceValue, h1, h2]
  · intro s
    unfold coerceValue
    cases h1 : goParseInt s with
    | some i => exact Or.inl ⟨i, rfl⟩
    | none =>
      cases h2 : goParseBool s with
      | some b => exact Or.inr (Or.inl ⟨b, rfl⟩)
      | none => exact Or.inr (Or.inr rfl)
  · intro confMap key value rest hk hv
    simp [readDeviceConfig, goSplit_keyValue key value hk hv]

/-- C5 witness: the coercion theorem applied at concrete inputs. -/
theorem C5_type_coercion_witness :
    coerceValue "7" = .int 7 ∧ coerceValue "t" = .bool true ∧
    coerceValue "vmbr0" = .str "vmbr0" ∧
    readDeviceConfig [] [("media" ++ "=" ++ "cdrom")] = some [("media", GoValue.str "cdrom")] := by
  refine ⟨C5_type_coercion.1 "7" 7 rfl, C5_type_coercion.2.1 "t" true rfl rfl,
    C5_type_coercion.2.2.1 "vmbr0" rfl rfl, ?_⟩
  rw [C5_type_coercion.2.2.2.2.2 [] "media" "cdrom" [] (by decide) (by decide)]
  rfl

/-- C7 counterexample: decoding a flat attribute list containing a segment
without an equals sign fails (the source panics indexing the missing value),
rather than silently ignoring the malformed segment and decoding the rest. -/
theorem C7_counterexample :
    readDeviceConfig [] ["media=cdrom", "garbage"] = none := rfl

/-- C7 amended: for every non-positional segment of a flat attribute list that
contains no equals sign, decoding fails (the source indexes the missing value
part, a runtime panic): the malformed segment is not ignored and the remaining
well-formed segments are not decoded. -/
theorem C7_malformed_segment_fails (confMap : QemuDevice) (segs : List String) (seg : String)
    (hmem : seg ∈ segs) (hne : '=' ∉ seg.data) :
    readDeviceConfig confMap segs = none := by
  induction segs generalizing confMap with
  | nil => cases hmem
  | cons head rest ih =>
    cases hmem with
    | head =>
      have hs : goSplit seg '=' = [seg] := by
        rw [goSplit, splitOnChar_no_sep _ _ hne]
        simp
      simp [readDeviceConfig, hs]
    | tail _ hm =>
      cases hsplit : goSplit head '=' with
      | nil => simp [readDeviceConfig, hsplit]
      | cons k t =>
        cases t with
        | nil => simp [readDeviceConfig, hsplit]
        | cons v t2 =>
          simp only [readDeviceConfig, hsplit]
          exact ih _ hm

theorem append_sep_inj (sep : Char) : ∀ (l₁ l₂ r₁ r₂ : List Char), sep ∉ l₁ → sep ∉ l₂ →
    l₁ ++ sep :: r₁ = l₂ ++ sep :: r₂ → l₁ = l₂ ∧ r₁ = r₂
  | [], [], _, _, _, _, h => ⟨rfl, by simpa using h⟩
  | [], y :: ys, _, _, _, h₂, h => by
    exfalso
    have hy : sep = y := by simpa using congrArg (fun l => l.head?) h
    exact h₂ (hy ▸ List.mem_cons_self y ys)
  | x :: xs, [], _, _, h₁, _, h => by
    exfalso
    have hx : x = sep := by simpa using congrArg (fun l => l.head?) h
    exact h₁ (hx ▸ List.mem_cons_self x xs)
  | x :: xs, y :: ys, r₁, r₂, h₁, h₂, h => by
    have hxy : x = y := by simpa using congrArg (fun l => l.head?) h
    have htl : xs ++ sep :: r₁ = ys ++ sep :: r₂ := by
      simpa using congrArg List.tail h
    have hxs : sep ∉ xs := fun hm => h₁ (List.mem_cons_of_mem x hm)
    have hys : sep ∉ ys := fun hm => h₂ (List.mem_cons_of_mem y hm)
    have hrec := append_sep_inj sep xs ys r₁ r₂ hxs hys htl
    exact ⟨by rw [hxy, hrec.1], hrec.2⟩

theorem keyValue_token_inj (k₁ k₂ v₁ v₂ : String) (h₁ : '=' ∉ k₁.data) (h₂ : '=' ∉ k₂.data)
    (h : k₁ ++ "=" ++ v₁ = k₂ ++ "=" ++ v₂) : k₁ = k₂ ∧ v₁ = v₂ := by
  have hdata : k₁.data ++ '=' :: v₁.data = k₂.data ++ '=' :: v₂.data := by
    have := congrArg String.data h
    simpa [String.data_append] using this
  obtain ⟨hk, hv⟩ := append_sep_inj '=' _ _ _ _ h₁ h₂ hdata
  exact ⟨String.ext hk, String.ext hv⟩

theorem nodup_keys_value_eq (conf : QemuDevice) (hnd : (conf.map Prod.fst).Nodup)
    (k : String) (v w : GoValue) (h1 : (k, v) ∈ conf) (h2 : (k, w) ∈ conf) : v = w := by
  induction conf with
  | nil => cases h1
  | cons kv rest ih =>
    rw [List.map_cons, List.nodup_cons] at hnd
    cases h1 with
    | head =>
      cases h2 with
      | head => rfl
      | tail _ hm => exact absurd (List.mem_map_of_mem Prod.fst hm) hnd.1
    | tail _ hm1 =>
      cases h2 with
      | head => exact absurd (List.mem_map_of_mem Prod.fst hm1) hnd.1
      | tail _ hm2 => exact ih hnd.2 hm1 hm2

/-- C2: in the generic attribute pass, for every attribute key not in the
ignored-key set, a value that is boolean false, an empty string or an integer
at most 0 never appears in the encoded attribute list (every token for that
key already came from the prefix list p), and a boolean true value is emitted
as the token key=1. -/
theorem C2_suppression (p : List String) (conf : QemuDevice) (ignoredKeys : List String)
    (key : String) (value : GoValue)
    (hnd : (conf.map Prod.fst).Nodup)
    (hkeys : ∀ kv ∈ conf, '=' ∉ (Prod.fst kv).data)
    (hmem : (key, value) ∈ conf) (hig : inArray ignoredKeys key = false) :
    ((value = .bool false ∨ value = .str "" ∨ (∃ n : Int, n ≤ 0 ∧ value = .int n)) →
      ∀ s, (key ++ "=" ++ s) ∈ createDeviceParam p conf ignoredKeys → (key ++ "=" ++ s) ∈ p) ∧
    (value = .bool true → (key ++ "=" ++ "1") ∈ createDeviceParam p conf ignoredKeys) := by
  constructor
  · intro hsupp s hmem2
    rw [createDeviceParam, List.mem_append] at hmem2
    cases hmem2 with
    | inl hp => exact hp
    | inr hf =>
      exfalso
      rw [List.mem_filterMap] at hf
      obtain ⟨kv, hkv, hfkv⟩ := hf
      by_cases hih : inArray ignoredKeys kv.1 = true
      · rw [if_pos hih] at hfkv
        cases hfkv
      · rw [if_neg hih] at hfkv
        cases hpv : paramValue kv.2 with
        | none => rw [hpv] at hfkv; cases hfkv
        | some v =>
          rw [hpv] at hfkv
          have htok : kv.1 ++ "=" ++ v = key ++ "=" ++ s := by simpa using hfkv
          obtain ⟨hkeq, hveq⟩ := keyValue_token_inj kv.1 key v s
            (hkeys kv hkv) (hkeys (key, value) hmem) htok
          have hkveta : kv = (key, kv.2) := by rw [← hkeq]
          have hkv2 : (key, kv.2) ∈ conf := hkveta ▸ hkv
          have hveq2 : kv.2 = value := nodup_keys_value_eq conf hnd key kv.2 value hkv2 hmem
          rw [hveq2] at hpv
          cases hsupp with
          | inl hb => rw [hb] at hpv; simp [paramValue] at hpv
          | inr hrest =>
            cases hrest with
            | inl hs => rw [hs] at hpv; simp [paramValue] at hpv
            | inr hi =>
              obtain ⟨n, hn, hv⟩ := hi
              rw [hv] at hpv
              simp only [paramValue] at hpv
              rw [if_neg (by omega)] at hpv
              cases hpv
  · intro htrue
    rw [createDeviceParam, List.mem_append, List.mem_filterMap]
    refine Or.inr ⟨(key, value), hmem, ?_⟩
    rw [htrue]
    simp [hig, paramValue]

/-- C2 witness: the suppression theorem applied twice at a concrete map, once
for a suppressed non-positive integer and once for an emitted boolean true. -/
theorem C2_suppression_witness :
    (∀ s, ("mtu" ++ "=" ++ s) ∈
        createDeviceParam ["size=20G"] [("mtu", GoValue.int 0), ("ssd", GoValue.bool true)] ["id"] →
      ("mtu" ++ "=" ++ s) ∈ ["size=20G"]) ∧
    ("ssd" ++ "=" ++ "1") ∈
      createDeviceParam ["size=20G"] [("mtu", GoValue.int 0), ("ssd", GoValue.bool true)] ["id"] := by
  constructor
  · exact (C2_suppression ["size=20G"] [("mtu", GoValue.int 0), ("ssd", GoValue.bool true)] ["id"]
      "mtu" (GoValue.int 0) (by simp) (by decide) (by simp) rfl).1
      (Or.inr (Or.inr ⟨0, le_refl 0, rfl⟩))
  · exact (C2_suppression ["size=20G"] [("mtu", GoValue.int 0), ("ssd", GoValue.bool true)] ["id"]
      "ssd" (GoValue.bool true) (by simp) (by decide) (by simp) rfl).2 rfl

/-- C7 witness: the amended theorem applied to a concrete malformed list. -/
theorem C7_malformed_segment_fails_witness :
    readDeviceConfig [] ["bridge=vmbr0", "junk"] = none :=
  C7_malformed_segment_fails [] _ "junk" (by simp) (by decide)

/-- C8 counterexample: the claim descriptor (type virtio, storage local, size
20G) carries no cache attribute, and the encoder unconditionally asserts the
cache entry as a string, so under create mode the encoding fails (a Go panic)
instead of producing virtio0 = local:20. -/
theorem C8_counterexample :
    CreateQemuDisksParams
      { QemuDisks := .mk [(0, [("type", GoValue.str "virtio"), ("storage", GoValue.str "local"),
          ("size", GoValue.str "20G")])] } 101 "create" [] = none := rfl

/-- C8 amended: under create action mode, the disk descriptor of the claim
extended with the cache attribute none (the encoder requires a cache string to
be present) at index 0 encodes to remote key virtio0 with value local:20: the
trailing G suffix is stripped from the size and the positional token is
emitted as storage:size. -/
theorem C8_create_scenario :
    CreateQemuDisksParams
      { QemuDisks := .mk [(0, [("type", GoValue.str "virtio"), ("storage", GoValue.str "local"),
          ("size", GoValue.str "20G"), ("cache", GoValue.str "none")])] } 101 "create" [] =
      some [("virtio0", GoValue.str "local:20")] := rfl

/-- C3 counterexample: the claim descriptor (type virtio, storage local, size
20G, storage_type dir, format qcow2) has no cache attribute, so under update
mode the encoder fails on the unconditional cache string assertion instead of
producing the claimed value; and even with cache none added, the encoded value
carries a trailing format=qcow2 token (format is not an ignored key), so it is
not the claimed string either. -/
theorem C3_counterexample :
    CreateQemuDisksParams
      { QemuDisks := .mk [(0, [("type", GoValue.str "virtio"), ("storage", GoValue.str "local"),
          ("size", GoValue.str "20G"), ("storage_type", GoValue.str "dir"),
          ("format", GoValue.str "qcow2")])] } 101 "update" [] = none ∧
    CreateQemuDisksParams
      { QemuDisks := .mk [(0, [("type", GoValue.str "virtio"), ("storage", GoValue.str "local"),
          ("size", GoValue.str "20G"), ("storage_type", GoValue.str "dir"),
          ("format", GoValue.str "qcow2"), ("cache", GoValue.str "none")])] } 101 "update" [] ≠
      some [("virtio0", GoValue.str "size=20G,file=local:101/vm-101-disk-1.qcow2")] := by
  refine ⟨rfl, ?_⟩
  intro h
  have h2 : (some [("virtio0",
      GoValue.str "size=20G,file=local:101/vm-101-disk-1.qcow2,format=qcow2")] : Option Params) =
      some [("virtio0", GoValue.str "size=20G,file=local:101/vm-101-disk-1.qcow2")] := by
    rw [← h]
    rfl
  injection h2 with h3
  injection h3 with h4 h5
  injection h4 with h6 h7
  injection h7 with h8
  exact absurd h8 (by decide)

/-- C3 amended: under update action mode a disk descriptor is encoded only when
its type, storage_type and cache attributes hold strings; the output value then
begins with the positional size token followed by the file token whose form is
chosen by the storage_type attribute (pool form for the LVM/ZFS-pool class,
file-based form otherwise); the concrete claim descriptor extended with cache
none encodes at index 0 with vmId 101 to
size=20G,file=local:101/vm-101-disk-1.qcow2,format=qcow2 (the format attribute
is not an ignored key, so the generic pass re-emits it). -/
theorem C3_update_disk (vmID diskID : Int) (conf : QemuDevice) (t st cv : String)
    (ht : qdGet conf "type" = some (.str t))
    (hst : qdGet conf "storage_type" = some (.str st))
    (hcv : qdGet conf "cache" = some (.str cv)) :
    (∃ restToks, encodeDisk vmID "update" diskID conf =
      some (t ++ goItoa diskID,
        goJoin "," (("size=" ++ goFormatOpt (qdGet conf "size")) ::
          (if rxStorageTypesMatch st then
            "file=" ++ goFormatOpt (qdGet conf "storage") ++ ":vm-" ++ goItoa vmID ++
              "-disk-" ++ goItoa (diskID + 1)
          else
            "file=" ++ goFormatOpt (qdGet conf "storage") ++ ":" ++ goItoa vmID ++
              "/vm-" ++ goItoa vmID ++ "-disk-" ++ goItoa (diskID + 1) ++ "." ++
              goFormatOpt (qdGet conf "format")) :: restToks))) ∧
    CreateQemuDisksParams
      { QemuDisks := .mk [(0, [("type", GoValue.str "virtio"), ("storage", GoValue.str "local"),
          ("size", GoValue.str "20G"), ("storage_type", GoValue.str "dir"),
          ("format", GoValue.str "qcow2"), ("cache", GoValue.str "none")])] } 101 "update" [] =
      some [("virtio0", GoValue.str "size=20G,file=local:101/vm-101-disk-1.qcow2,format=qcow2")] := by
  constructor
  · by_cases hcn : cv = "none"
    · refine ⟨conf.filterMap (fun kv =>
        if inArray ["id", "type", "storage", "storage_type", "size", "cache"] kv.1 then none
        else (paramValue kv.2).map (fun v => kv.1 ++ "=" ++ v)), ?_⟩
      simp [encodeDisk, ht, hst, hcv, hcn, goAssertString, createDeviceParam]
    · refine ⟨("cache=" ++ goFormatOpt (qdGet conf "cache")) :: conf.filterMap (fun kv =>
        if inArray ["id", "type", "storage", "storage_type", "size", "cache"] kv.1 then none
        else (paramValue kv.2).map (fun v => kv.1 ++ "=" ++ v)), ?_⟩
      simp [encodeDisk, ht, hst, hcv, hcn, goAssertString, createDeviceParam]
  · rfl

/-- C3 witness: the amended theorem instantiated at the concrete scenario
descriptor (storage_type dir, format qcow2, cache none, vmId 101, index 0). -/
theorem C3_update_disk_witness :
    ∃ restToks, encodeDisk 101 "update" 0
      [("type", GoValue.str "virtio"), ("storage", GoValue.str "local"),
       ("size", GoValue.str "20G"), ("storage_type", GoValue.str "dir"),
       ("format", GoValue.str "qcow2"), ("cache", GoValue.str "none")] =
      some ("virtio0", goJoin "," ("size=20G" :: "file=local:101/vm-101-disk-1.qcow2" :: restToks)) := by
  obtain ⟨restToks, hrest⟩ := (C3_update_disk 101 0
    [("type", GoValue.str "virtio"), ("storage", GoValue.str "local"),
     ("size", GoValue.str "20G"), ("storage_type", GoValue.str "dir"),
     ("format", GoValue.str "qcow2"), ("cache", GoValue.str "none")]
    "virtio" "dir" "none" rfl rfl rfl).1
  exact ⟨restToks, hrest⟩

theorem qdGet_qdSet_self (m : List (String × GoValue)) (k : String) (v : GoValue) :
    qdGet (qdSet m k v) k = some v := by
  induction m with
  | nil => simp [qdGet, qdSet]
  | cons kv rest ih =>
    by_cases hk : kv.1 = k
    · simp [qdGet, qdSet, hk]
    · simp [qdGet, qdSet, hk, ih]

theorem qdGet_qdSet_other (m : List (String × GoValue)) (k k2 : String) (v : GoValue)
    (h : k2 ≠ k) : qdGet (qdSet m k v) k2 = qdGet m k2 := by
  have hkk : ¬ k = k2 := fun he => h he.symm
  induction m with
  | nil => simp [qdGet, qdSet, hkk]
  | cons kv rest ih =>
    by_cases hk : kv.1 = k
    · simp [qdGet, qdSet, hk, hkk]
    · by_cases hk2 : kv.1 = k2
      · simp [qdGet, qdSet, hk, hk2, h, hkk]
      · simp [qdGet, qdSet, hk, hk2, ih]

theorem encodeNic_generated_mac (randRead : Int → List Nat) (vmID nicID : Int)
    (conf : QemuDevice) (b : String)
    (hm : qdGet conf "macaddr" = some (.str ""))
    (hb : qdGet conf "bridge" = some (.str b)) :
    encodeNic randRead vmID nicID conf =
      some (goJoin "," (("macaddr=" ++ generatedMac randRead (vmID + nicID)) ::
        ((if b ≠ "nat" then
            ["bridge=" ++ goFormatOpt (qdGet (qdSet conf "macaddr"
              (GoValue.str (generatedMac randRead (vmID + nicID)))) "bridge")]
          else []) ++
          (qdSet conf "macaddr" (GoValue.str (generatedMac randRead (vmID + nicID)))).filterMap
            (fun kv => if inArray ["id", "bridge", "macaddr"] kv.1 then none
              else (paramValue kv.2).map (fun v => kv.1 ++ "=" ++ v)))),
        qdSet conf "macaddr" (GoValue.str (generatedMac randRead (vmID + nicID)))) := by
  have hb2 : qdGet (qdSet conf "macaddr"
      (GoValue.str (generatedMac randRead (vmID + nicID)))) "bridge" = some (.str b) := by
    rw [qdGet_qdSet_other _ _ _ _ (by decide)]
    exact hb
  by_cases hnat : b = "nat"
  · simp [encodeNic, hm, hb2, goAssertString, hnat, createDeviceParam]
  · simp [encodeNic, hm, hb2, goAssertString, hnat, createDeviceParam]

/-- C4: when the macaddr attribute of a network descriptor is the empty string
at encode time, a MAC address is derived deterministically from vmId plus
nicIndex: two encode passes with the same VM id and NIC index (MAC omitted
both times, in otherwise arbitrary descriptors) produce the identical
uppercase colon-separated MAC address, the generated value is written back
into the macaddr attribute of the returned descriptor so the caller observes
it, and the emitted flat value starts with the generated macaddr token. -/
theorem C4_mac_determinism (randRead : Int → List Nat) (vmID nicID : Int)
    (conf₁ conf₂ : QemuDevice) (b₁ b₂ : String)
    (h₁ : qdGet conf₁ "macaddr" = some (.str ""))
    (h₂ : qdGet conf₂ "macaddr" = some (.str ""))
    (hb₁ : qdGet conf₁ "bridge" = some (.str b₁))
    (hb₂ : qdGet conf₂ "bridge" = some (.str b₂)) :
    ∃ s₁ m₁ s₂ m₂,
      encodeNic randRead vmID nicID conf₁ = some (s₁, m₁) ∧
      encodeNic randRead vmID nicID conf₂ = some (s₂, m₂) ∧
      qdGet m₁ "macaddr" = some (.str (generatedMac randRead (vmID + nicID))) ∧
      qdGet m₂ "macaddr" = qdGet m₁ "macaddr" ∧
      (∃ restToks₁, s₁ = goJoin ","
        (("macaddr=" ++ generatedMac randRead (vmID + nicID)) :: restToks₁)) ∧
      (∃ restToks₂, s₂ = goJoin ","
        (("macaddr=" ++ generatedMac randRead (vmID + nicID)) :: restToks₂)) := by
  have key : ∀ (conf : QemuDevice) (b : String),
      qdGet conf "macaddr" = some (.str "") → qdGet conf "bridge" = some (.str b) →
      ∃ s m, encodeNic randRead vmID nicID conf = some (s, m) ∧
        qdGet m "macaddr" = some (.str (generatedMac randRead (vmID + nicID))) ∧
        ∃ restToks, s = goJoin ","
          (("macaddr=" ++ generatedMac randRead (vmID + nicID)) :: restToks) := by
    intro conf b hm hb
    exact ⟨_, _, encodeNic_generated_mac randRead vmID nicID conf b hm hb,
      qdGet_qdSet_self conf "macaddr" _, _, rfl⟩
  obtain ⟨s₁, m₁, he₁, hm₁, hr₁⟩ := key conf₁ b₁ h₁ hb₁
  obtain ⟨s₂, m₂, he₂, hm₂, hr₂⟩ := key conf₂ b₂ h₂ hb₂
  exact ⟨s₁, m₁, s₂, m₂, he₁, he₂, hm₁, by rw [hm₂, hm₁], hr₁, hr₂⟩

/-- C4 witness: the determinism theorem applied at a concrete random oracle,
VM id 101 and NIC index 0, with one descriptor using bridge vmbr0 and the
other the suppressed bridge nat. -/
theorem C4_mac_determinism_witness :
    ∃ s₁ m₁ s₂ m₂,
      encodeNic (fun s => [s.toNat % 256, 1, 2, 3, 4, 255]) 101 0
        [("macaddr", GoValue.str ""), ("bridge", GoValue.str "vmbr0"),
         ("model", GoValue.str "virtio")] = some (s₁, m₁) ∧
      encodeNic (fun s => [s.toNat % 256, 1, 2, 3, 4, 255]) 101 0
        [("macaddr", GoValue.str ""), ("bridge", GoValue.str "nat")] = some (s₂, m₂) ∧
      qdGet m₁ "macaddr" =
        some (.str (generatedMac (fun s => [s.toNat % 256, 1, 2, 3, 4, 255]) (101 + 0))) ∧
      qdGet m₂ "macaddr" = qdGet m₁ "macaddr" ∧
      (∃ restToks₁, s₁ = goJoin ","
        (("macaddr=" ++ generatedMac (fun s => [s.toNat % 256, 1, 2, 3, 4, 255]) (101 + 0)) :: restToks₁)) ∧
      (∃ restToks₂, s₂ = goJoin ","
        (("macaddr=" ++ generatedMac (fun s => [s.toNat % 256, 1, 2, 3, 4, 255]) (101 + 0)) :: restToks₂)) :=
  C4_mac_determinism (fun s => [s.toNat % 256, 1, 2, 3, 4, 255]) 101 0
    [("macaddr", GoValue.str ""), ("bridge", GoValue.str "vmbr0"), ("model", GoValue.str "virtio")]
    [("macaddr", GoValue.str ""), ("bridge", GoValue.str "nat")]
    "vmbr0" "nat" rfl rfl rfl rfl

/-- C6: the deprecated-field synthesis runs only when the modern device table
is empty: with a non-empty disk (resp. network) table the effective table
equals the original one — the deprecated scalar fields are never synthesized
into the encoded output (the encoding is invariant under changing them) and an
explicit index-0 entry is never overwritten; with an initialized empty table
and a non-empty deprecated field, exactly one legacy descriptor is synthesized
at index 0 before device iteration. -/
theorem C6_legacy_exclusivity (cD cN cDE cNE : ConfigQemu)
    (hD : cD.QemuDisks.goLen ≠ 0)
    (hN : cN.QemuNetworks.goLen ≠ 0)
    (hDE : cDE.QemuDisks = .mk [])
    (hDEs : cDE.Storage ≠ "")
    (hNE : cNE.QemuNetworks = .mk [])
    (hNEm : cNE.QemuNicModel ≠ "") :
    disksBackCompat cD = some cD.QemuDisks ∧
    (∀ s d vmID action params,
      CreateQemuDisksParams { cD with Storage := s, DiskSize := d } vmID action params =
        CreateQemuDisksParams cD vmID action params) ∧
    netsBackCompat cN = some cN.QemuNetworks ∧
    (∀ randRead model bridge tag vmID params,
      CreateQemuNetworksParams randRead
          { cN with QemuNicModel := model, QemuBrige := bridge, QemuVlanTag := tag } vmID params =
        CreateQemuNetworksParams randRead cN vmID params) ∧
    disksBackCompat cDE =
      some (.mk [(0, [("storage", .str cDE.Storage), ("size", .float cDE.DiskSize)])]) ∧
    netsBackCompat cNE =
      some (.mk [(0,
        if cNE.QemuVlanTag > 0 then
          [("type", .str cNE.QemuNicModel), ("bridge", .str cNE.QemuBrige),
           ("tag", .str (goItoa cNE.QemuVlanTag))]
        else
          [("type", .str cNE.QemuNicModel), ("bridge", .str cNE.QemuBrige)])]) := by
  have h1 : disksBackCompat cD = some cD.QemuDisks := by
    rw [disksBackCompat, if_neg]
    intro hc
    exact hD hc.1
  have h1n : netsBackCompat cN = some cN.QemuNetworks := by
    rw [netsBackCompat, if_neg]
    intro hc
    exact hN hc.1
  have hlenDE : cDE.Storage.length > 0 := by
    have hd : cDE.Storage.data ≠ [] := by
      intro hd
      exact hDEs (String.ext hd)
    exact List.length_pos.mpr hd
  have hlenNE : cNE.QemuNicModel.length > 0 := by
    have hd : cNE.QemuNicModel.data ≠ [] := by
      intro hd
      exact hNEm (String.ext hd)
    exact List.length_pos.mpr hd
  refine ⟨h1, ?_, h1n, ?_, ?_, ?_⟩
  · intro s d vmID action params
    have h2 : disksBackCompat { cD with Storage := s, DiskSize := d } = some cD.QemuDisks := by
      rw [disksBackCompat, if_neg]
      intro hc
      exact hD hc.1
    simp [CreateQemuDisksParams, h1, h2]
  · intro randRead model bridge tag vmID params
    have h2n : netsBackCompat
        { cN with QemuNicModel := model, QemuBrige := bridge, QemuVlanTag := tag } =
        some cN.QemuNetworks := by
      rw [netsBackCompat, if_neg]
      intro hc
      exact hN hc.1
    simp [CreateQemuNetworksParams, h1n, h2n]
  · rw [disksBackCompat, if_pos ⟨by rw [hDE]; rfl, hlenDE⟩, hDE]
    rfl
  · rw [netsBackCompat, if_pos ⟨by rw [hNE]; rfl, hlenNE⟩, hNE]
    by_cases htag : cNE.QemuVlanTag > 0
    · simp [htag, QemuDevices.set, qdevEntriesSet]
    · simp [htag, QemuDevices.set, qdevEntriesSet]

/-- C6 witness: the exclusivity theorem applied to concrete configurations,
showing no synthesis for a populated table and exactly one synthesized legacy
descriptor for an initialized empty table. -/
theorem C6_legacy_exclusivity_witness :
    disksBackCompat { QemuDisks := .mk [(0, [("type", GoValue.str "virtio")])],
                      Storage := "legacy" } =
      some (.mk [(0, [("type", GoValue.str "virtio")])]) ∧
    disksBackCompat { QemuDisks := .mk [], Storage := "local" } =
      some (.mk [(0, [("storage", GoValue.str "local"), ("size", GoValue.float 0.0)])]) ∧
    netsBackCompat { QemuNetworks := .mk [], QemuNicModel := "e1000", QemuBrige := "vmbr0" } =
      some (.mk [(0, [("type", GoValue.str "e1000"), ("bridge", GoValue.str "vmbr0")])]) := by
  have h := C6_legacy_exclusivity
    { QemuDisks := .mk [(0, [("type", GoValue.str "virtio")])], Storage := "legacy" }
    { QemuNetworks := .mk [(0, [])] }
    { QemuDisks := .mk [], Storage := "local" }
    { QemuNetworks := .mk [], QemuNicModel := "e1000", QemuBrige := "vmbr0" }
    (by decide) (by decide) rfl (by decide) rfl (by decide)
  exact ⟨h.1, h.2.2.2.2.1, h.2.2.2.2.2⟩

/-- C10: when the device table is nil (declared but never initialized) while
the deprecated scalar field is non-empty, the backward-compatibility synthesis
fails on the assignment of the synthesized descriptor to index 0 of the nil
map (a Go runtime panic), so encoding does not complete in that state. -/
theorem C10_nil_table_panics (cD cN : ConfigQemu)
    (hD : cD.QemuDisks = .nilMap) (hDs : cD.Storage ≠ "")
    (hN : cN.QemuNetworks = .nilMap) (hNm : cN.QemuNicModel ≠ "") :
    disksBackCompat cD = none ∧
    (∀ vmID action params, CreateQemuDisksParams cD vmID action params = none) ∧
    netsBackCompat cN = none ∧
    (∀ randRead vmID params, CreateQemuNetworksParams randRead cN vmID params = none) := by
  have hlenD : cD.Storage.length > 0 := by
    have hd : cD.Storage.data ≠ [] := by
      intro hd
      exact hDs (String.ext hd)
    exact List.length_pos.mpr hd
  have hlenN : cN.QemuNicModel.length > 0 := by
    have hd : cN.QemuNicModel.data ≠ [] := by
      intro hd
      exact hNm (String.ext hd)
    exact List.length_pos.mpr hd
  have h1 : disksBackCompat cD = none := by
    rw [disksBackCompat, if_pos ⟨by rw [hD]; rfl, hlenD⟩, hD]
    rfl
  have h2 : netsBackCompat cN = none := by
    rw [netsBackCompat, if_pos ⟨by rw [hN]; rfl, hlenN⟩, hN]
    rfl
  refine ⟨h1, ?_, h2, ?_⟩
  · intro vmID action params
    simp [CreateQemuDisksParams, h1]
  · intro randRead vmID params
    simp [CreateQemuNetworksParams, h2]

/-- C10 witness: the nil-table theorem applied to a concrete configuration
with nil tables and non-empty deprecated fields. -/
theorem C10_nil_table_panics_witness :
    CreateQemuDisksParams { Storage := "local" } 101 "create" [] = none ∧
    CreateQemuNetworksParams (fun _ => []) { QemuNicModel := "e1000" } 101 [] = none := by
  have h := C10_nil_table_panics { Storage := "local" } { QemuNicModel := "e1000" }
    rfl (by decide) rfl (by decide)
  exact ⟨h.2.1 101 "create" [], h.2.2.2 (fun _ => []) 101 []⟩

/-- C9: CloneVm issues the remote clone call with the new id, target node,
name, storage and full-clone flag; if the clone call fails, the failure is
returned unchanged and no set-config call is issued; if it succeeds,
UpdateConfig runs on the new VM and issues only SetVmConfig calls, and (shown
on a concrete one-disk configuration) the set-config parameters apply
description, onboot, sockets, cores, memory and the device table encoded
under the update action mode. -/
theorem C9_clone_then_update (randRead : Int → List Nat) (config : ConfigQemu)
    (sourceVmr vmr : VmRef) (client : Client) :
    (∀ e, client.cloneQemuVmResult = .error e →
      CloneVm randRead config sourceVmr vmr client =
        (some (.error e), [.cloneQemuVm sourceVmr (cloneParams config vmr)])) ∧
    (∀ u, client.cloneQemuVmResult = .ok u →
      CloneVm randRead config sourceVmr vmr client =
        ((UpdateConfig randRead config vmr client).1,
          .cloneQemuVm sourceVmr (cloneParams config vmr) ::
            (UpdateConfig randRead config vmr client).2)) ∧
    (∀ call, call ∈ (UpdateConfig randRead config vmr client).2 →
      ∃ p, call = .setVmConfig vmr p) ∧
    UpdateConfig randRead
      { Description := "cloned", Onboot := true, QemuSockets := 1, QemuCores := 2, Memory := 2048,
        QemuDisks := .mk [(0, [("type", GoValue.str "virtio"), ("storage", GoValue.str "local"),
          ("size", GoValue.str "20G"), ("storage_type", GoValue.str "dir"),
          ("format", GoValue.str "qcow2"), ("cache", GoValue.str "none")])],
        QemuNetworks := .mk [] }
      { vmId := 101, node := "pve1" } client =
      (some (match client.setVmConfigResult with
             | .error e => .error e
             | .ok _ => .ok ()),
       [.setVmConfig { vmId := 101, node := "pve1" }
         [("description", GoValue.str "cloned"), ("onboot", GoValue.bool true),
          ("sockets", GoValue.int 1), ("cores", GoValue.int 2), ("memory", GoValue.int 2048),
          ("virtio0",
           GoValue.str "size=20G,file=local:101/vm-101-disk-1.qcow2,format=qcow2")]]) := by
  refine ⟨?_, ?_, ?_, rfl⟩
  · intro e he
    simp [CloneVm, he]
  · intro u hu
    simp [CloneVm, hu]
  · intro call hcall
    unfold UpdateConfig at hcall
    cases hd : CreateQemuDisksParams config vmr.vmId "update" (updateConfigParams config) with
    | none =>
      simp [hd] at hcall
    | some p1 =>
      cases hn : CreateQemuNetworksParams randRead config vmr.vmId p1 with
      | none =>
        simp [hd, hn] at hcall
      | some pr =>
        simp [hd, hn] at hcall
        exact ⟨pr.1, hcall⟩

/-- C9 witness: the clone theorem applied with a failing and with a succeeding
clone transport result. -/
theorem C9_clone_then_update_witness :
    CloneVm (fun _ => []) {} { vmId := 100, node := "src" } { vmId := 101, node := "pve1" }
      { cloneQemuVmResult := .error "transport down", setVmConfigResult := .ok (GoValue.int 0) } =
      (some (.error "transport down"),
        [.cloneQemuVm { vmId := 100, node := "src" }
          (cloneParams {} { vmId := 101, node := "pve1" })]) ∧
    CloneVm (fun _ => []) {} { vmId := 100, node := "src" } { vmId := 101, node := "pve1" }
      { cloneQemuVmResult := .ok (GoValue.int 0), setVmConfigResult := .ok (GoValue.int 0) } =
      ((UpdateConfig (fun _ => []) {} { vmId := 101, node := "pve1" }
          { cloneQemuVmResult := .ok (GoValue.int 0), setVmConfigResult := .ok (GoValue.int 0) }).1,
        .cloneQemuVm { vmId := 100, node := "src" }
            (cloneParams {} { vmId := 101, node := "pve1" }) ::
          (UpdateConfig (fun _ => []) {} { vmId := 101, node := "pve1" }
            { cloneQemuVmResult := .ok (GoValue.int 0), setVmConfigResult := .ok (GoValue.int 0) }).2) :=
  ⟨(C9_clone_then_update (fun _ => []) {} { vmId := 100, node := "src" }
      { vmId := 101, node := "pve1" }
      { cloneQemuVmResult := .error "transport down", setVmConfigResult := .ok (GoValue.int 0) }).1
      "transport down" rfl,
   (C9_clone_then_update (fun _ => []) {} { vmId := 100, node := "src" }
      { vmId := 101, node := "pve1" }
      { cloneQemuVmResult := .ok (GoValue.int 0), setVmConfigResult := .ok (GoValue.int 0) }).2.1
      (GoValue.int 0) rfl⟩

end ProxmoxApi
